import Mathlib

/-!
# BenchPress — result aggregation and scoring pipeline, verified

A shallow embedding of the core of the BenchPress benchmark harness
(`run.py`, `scripts/dashboard.py`): the append-only per-model run store,
the evaluation orchestrator, the rejudge / deepeval re-scoring workflows,
and the composite scoring / leaderboard aggregation.

Modelling conventions:
* Python `dict` values keyed by prompt id are modelled as insertion-ordered
  association lists (`List (String × _)`), matching CPython dict ordering.
* A field read with `run.get(k)` that may be missing or `None` is an
  `Option`; Python truthiness of an optional string / dict is made explicit
  (`strTruthy`, `deTruthy`): `None`, `""` and `{}` are falsy.
* Numeric values are `ℚ`.  The presentation-precision calls
  `round(x, 4)` / `round(x, 2)` on IEEE floats in `cmd_compare` /
  `compute_stats` are display detail and are not modelled (exact float
  rounding is outside the embedding); all other arithmetic is exact.
* `math.log2` is an abstract parameter `log2 : ℚ → ℚ` of the dashboard
  aggregation; the code guards every application of it.
* Timestamps (`datetime.now().isoformat()`) are abstract instants `Nat`,
  supplied by the caller and incremented per network call.
* External collaborators (completion provider, automated checker, judge
  adapter, secondary-metric scorer) are function parameters, per the spec's
  component boundaries; provider and scorer calls may fail (`Except`).
-/

namespace BenchPress

/-- `auto_checks` payload: `{"flags": [...], "auto_scores": {...}, "passed": bool}`
as produced by `scripts/checks.py::check_response`.  The `auto_scores`
mapping holds opaque pass-through data (the core never branches on it),
modelled as an association list with integer payloads. -/
structure AutoChecks where
  flags : List String
  auto_scores : List (String × Int)
  passed : Bool
deriving DecidableEq, Repr

/-- One Run Entry (`run.py` entry dicts): one attempt to answer one prompt
with one model configuration.  Keys that a given code path leaves out of
the dict are `none` (Python `dict.get` returns `None` for both an absent
key and a stored `None`). -/
structure RunEntry where
  timestamp : Nat
  api_model : String
  content : String
  latency_s : ℚ
  input_tokens : Option Nat
  output_tokens : Option Nat
  auto_checks : AutoChecks
  judge_score : Option Nat
  judge_rationale : String
  judge_model : Option String
  deepeval_scores : Option (List (String × Option ℚ)) := none
  deepeval_avg : Option ℚ := none
  error : Option String := none
deriving DecidableEq, Repr

/-- Python truthiness of an optional string: `None` and `""` are falsy
(`if run.get("error"):`). -/
def strTruthy : Option String → Bool
  | some s => !s.isEmpty
  | none => false

/-- Python truthiness of an optional mapping: `None` and `{}` are falsy
(`if run.get("deepeval_scores"):`). -/
def deTruthy : Option (List (String × Option ℚ)) → Bool
  | some l => !l.isEmpty
  | none => false

/-- The `runs` mapping of a Model Result Set: prompt id → ordered run
history, in insertion order. -/
abbrev RunStore := List (String × List RunEntry)

/-- `model_data["runs"].get(pid, [])`: run history for a prompt id, `[]`
when the id has never been written. -/
def lookupRuns : RunStore → String → List RunEntry
  | [], _ => []
  | (q, rs) :: rest, pid => if q = pid then rs else lookupRuns rest pid

/-- The prompt ids present in the store (`model_data["runs"].keys()`), in
insertion order. -/
def storeKeys (st : RunStore) : List String := st.map Prod.fst

/-- `run.py` lines 244-246:
`if pid not in model_data["runs"]: model_data["runs"][pid] = []` followed by
`model_data["runs"][pid].append(entry)`.  A new key lands at the end of the
mapping (CPython dict insertion order). -/
def appendRun : RunStore → String → RunEntry → RunStore
  | [], pid, e => [(pid, [e])]
  | (q, rs) :: rest, pid, e =>
      if q = pid then (q, rs ++ [e]) :: rest else (q, rs) :: appendRun rest pid e

/-- `run.py::latest_run`: the last element of the history for `pid`, or the
empty sentinel (`{}`, modelled as `none`) when no runs exist. -/
def latest_run (model_data : RunStore) (pid : String) : Option RunEntry :=
  (lookupRuns model_data pid).getLast?

/-- A persisted Model Result Set (`results/<model>.json`). -/
structure ModelResults where
  model_name : String
  created : Nat
  updated : Option Nat := none
  runs : RunStore
deriving DecidableEq, Repr

/-- `run.py::load_model_results`: returns the persisted state, or a freshly
initialised empty result set when no result file exists.  Absence is a
valid empty state, never an error. -/
def load_model_results (persisted : Option ModelResults) (model_name : String)
    (now : Nat) : ModelResults :=
  match persisted with
  | some data => data
  | none => { model_name := model_name, created := now, runs := [] }

/-- `run.py::save_model_results`: refreshes `updated` on every save (the
file write itself is external I/O). -/
def save_model_results (now : Nat) (data : ModelResults) : ModelResults :=
  { data with updated := some now }

/-! ## Store lemmas -/

theorem lookupRuns_appendRun_self (st : RunStore) (pid : String) (e : RunEntry) :
    lookupRuns (appendRun st pid e) pid = lookupRuns st pid ++ [e] := by
  induction st with
  | nil => simp [appendRun, lookupRuns]
  | cons hd tl ih =>
    obtain ⟨q, rs⟩ := hd
    by_cases h : q = pid <;> simp [appendRun, lookupRuns, h, ih]

theorem lookupRuns_appendRun_ne (st : RunStore) {pid q : String} (e : RunEntry)
    (h : q ≠ pid) : lookupRuns (appendRun st pid e) q = lookupRuns st q := by
  have h' : ¬pid = q := fun hh => h hh.symm
  induction st with
  | nil => simp [appendRun, lookupRuns, h']
  | cons hd tl ih =>
    obtain ⟨k, rs⟩ := hd
    by_cases hk : k = pid
    · subst hk
      simp [appendRun, lookupRuns, h']
    · by_cases hq : k = q
      · subst hq
        simp [appendRun, lookupRuns, hk]
      · simp [appendRun, lookupRuns, hk, hq, ih]

theorem appendRun_of_not_mem {st : RunStore} {pid : String} (e : RunEntry)
    (h : pid ∉ storeKeys st) : appendRun st pid e = st ++ [(pid, [e])] := by
  induction st with
  | nil => simp [appendRun]
  | cons hd tl ih =>
    obtain ⟨q, rs⟩ := hd
    simp only [storeKeys, List.map_cons, List.mem_cons] at h
    push_neg at h
    have h1 : ¬q = pid := fun hh => h.1 hh.symm
    simp [appendRun, h1, ih (by simpa [storeKeys] using h.2)]

theorem lookupRuns_append_foldl (es : List RunEntry) (st : RunStore) (pid : String) :
    lookupRuns (es.foldl (fun s e => appendRun s pid e) st) pid =
      lookupRuns st pid ++ es := by
  induction es generalizing st with
  | nil => simp
  | cons e es ih => simp [ih, lookupRuns_appendRun_self]

/-- C7: for every (model, prompt id) the run history is an ordered
append-only sequence.  A single `append` extends the history by exactly the
new entry, leaving every prior entry and every other prompt's history
untouched; a whole sequence of appends likewise only extends; `latest_run`
is always the most recently appended entry, and is the empty sentinel on an
empty store — including the store of a model for which no result file was
ever persisted (`load_model_results` of an absent file). -/
theorem run_history_append_only (st : RunStore) (pid q : String)
    (e : RunEntry) (es : List RunEntry) (name : String) (now : Nat)
    (hq : q ≠ pid) :
    lookupRuns (appendRun st pid e) pid = lookupRuns st pid ++ [e]
    ∧ (lookupRuns (appendRun st pid e) pid).length
        = (lookupRuns st pid).length + 1
    ∧ lookupRuns (appendRun st pid e) q = lookupRuns st q
    ∧ latest_run (appendRun st pid e) pid = some e
    ∧ lookupRuns (es.foldl (fun s e' => appendRun s pid e') st) pid
        = lookupRuns st pid ++ es
    ∧ latest_run ([] : RunStore) pid = none
    ∧ (load_model_results none name now).runs = [] := by
  refine ⟨lookupRuns_appendRun_self st pid e, ?_,
    lookupRuns_appendRun_ne st e hq, ?_,
    lookupRuns_append_foldl es st pid, rfl, rfl⟩
  · rw [lookupRuns_appendRun_self]; simp
  · rw [latest_run, lookupRuns_appendRun_self]; simp

/-- Witness for `run_history_append_only` at a concrete store. -/
theorem run_history_append_only_witness :
    let e0 : RunEntry :=
      { timestamp := 0, api_model := "m", content := "a", latency_s := 1,
        input_tokens := some 1, output_tokens := some 2,
        auto_checks := ⟨[], [], true⟩, judge_score := some 4,
        judge_rationale := "", judge_model := some "j" }
    let e1 : RunEntry := { e0 with timestamp := 1, content := "b" }
    let st : RunStore := [("P1", [e0])]
    lookupRuns (appendRun st "P1" e1) "P1" = lookupRuns st "P1" ++ [e1]
    ∧ (lookupRuns (appendRun st "P1" e1) "P1").length
        = (lookupRuns st "P1").length + 1
    ∧ lookupRuns (appendRun st "P1" e1) "P2" = lookupRuns st "P2"
    ∧ latest_run (appendRun st "P1" e1) "P1" = some e1
    ∧ lookupRuns ([e1, e0].foldl (fun s e' => appendRun s "P1" e') st) "P1"
        = lookupRuns st "P1" ++ [e1, e0]
    ∧ latest_run ([] : RunStore) "P1" = none
    ∧ (load_model_results none "fresh-model" 7).runs = [] := by
  intro e0 e1 st
  exact run_history_append_only st "P1" "P2" e1 [e1, e0] "fresh-model" 7
    (by decide)

/-! ## Aggregation: `cmd_compare` (run.py 309-346) and
`compute_stats` (scripts/dashboard.py 58-170) -/

/-- `sum(l)/len(l) if l else 0` — the guarded arithmetic mean used
throughout both aggregators. -/
def listAvg (l : List ℚ) : ℚ := if l.isEmpty then 0 else l.sum / l.length

/-- The same guarded mean over the collected integer judge scores. -/
def listAvgN (l : List Nat) : ℚ :=
  if l.isEmpty then 0 else ((l.sum : ℚ)) / l.length

/-- The latest run per prompt id, in prompt order, dropping prompts with no
runs (`run = latest_run(data, pid); if not run: continue`). -/
def latest_runs (data : RunStore) (pids : List String) : List RunEntry :=
  pids.filterMap (latest_run data)

/-- The composite-score merge, identical in `cmd_compare` (run.py 334-342)
and `compute_stats` (dashboard.py 140-148): normalise the judge mean from
the 1-5 scale to 0-1, then weight-merge with the deepeval mean, degrading
to whichever side is available and to `None` when neither is. -/
def composite_of (judge_weight deepeval_weight : ℚ) (scores : List Nat)
    (de_avgs : List ℚ) : Option ℚ :=
  let avg_s := listAvgN scores
  let deepeval_avg : Option ℚ :=
    if de_avgs.isEmpty then none else some (listAvg de_avgs)
  let normalized_judge : Option ℚ :=
    if scores.isEmpty then none else some ((avg_s - 1) / 4)
  match normalized_judge, deepeval_avg with
  | some nj, some da => some (judge_weight * nj + deepeval_weight * da)
  | some nj, none => some nj
  | none, some da => some da
  | none, none => none

/-- One leaderboard tuple of `cmd_compare`
(`(name, avg_s, len(scores), total, flagged, avg_l, avg_t, composite)`). -/
structure CompareRow where
  name : String
  avg_s : ℚ
  scored : Nat
  total : Nat
  flagged : Nat
  avg_l : ℚ
  avg_t : ℚ
  composite : Option ℚ
deriving DecidableEq, Repr

/-- The per-model aggregation pass of `cmd_compare` (run.py 309-344): over
the latest run per prompt, gather judge scores, flag counts, latencies,
token counts and deepeval averages, then derive the means and the
composite.  Errored runs are NOT filtered out here. -/
def compare_row (judge_weight deepeval_weight : ℚ) (name : String)
    (data : RunStore) (pids : List String) : CompareRow :=
  let rs := latest_runs data pids
  let scores := rs.filterMap (fun r => r.judge_score)
  let de_avgs := rs.filterMap (fun r => r.deepeval_avg)
  { name := name
    avg_s := listAvgN scores
    scored := scores.length
    total := rs.length
    flagged := rs.countP (fun r => !r.auto_checks.flags.isEmpty)
    avg_l := listAvg (rs.map (fun r => r.latency_s))
    avg_t := listAvg (rs.map (fun r => ((r.output_tokens.getD 0 : Nat) : ℚ)))
    composite := composite_of judge_weight deepeval_weight scores de_avgs }

/-- One leaderboard record of `compute_stats` (dashboard.py 150-168),
restricted to the scalar per-model statistics (the per-category breakdown,
score distribution, median latency and per-metric deepeval means are
further presentation fields of the same dict, independent of these). -/
structure StatsRow where
  name : String
  avg_score : ℚ
  scored : Nat
  total : Nat
  errors : Nat
  flagged : Nat
  avg_latency : ℚ
  avg_tokens : ℚ
  efficiency : ℚ
  deepeval_avg : Option ℚ
  composite_score : Option ℚ
deriving DecidableEq, Repr

/-- The latest runs the dashboard aggregates over: unlike `cmd_compare`, it
skips any latest run whose `error` is truthy
(`if run.get("error"): errors += 1; continue`, dashboard.py 67-69). -/
def stats_latest_ok (data : RunStore) (pids : List String) : List RunEntry :=
  (latest_runs data pids).filter (fun r => !strTruthy r.error)

/-- The per-model aggregation pass of `compute_stats`
(dashboard.py 58-168), parametrised by the real function `math.log2`. -/
def compute_stats_row (log2 : ℚ → ℚ) (judge_weight deepeval_weight : ℚ)
    (name : String) (data : RunStore) (pids : List String) : StatsRow :=
  let rs := stats_latest_ok data pids
  let scores := rs.filterMap (fun r => r.judge_score)
  let de_avgs := rs.filterMap (fun r => r.deepeval_avg)
  let avg_s := listAvgN scores
  let avg_t := listAvg (rs.map (fun r => ((r.output_tokens.getD 0 : Nat) : ℚ)))
  { name := name
    avg_score := avg_s
    scored := scores.length
    total := (latest_runs data pids).length
    errors := (latest_runs data pids).countP (fun r => strTruthy r.error)
    flagged := rs.countP (fun r => !r.auto_checks.flags.isEmpty)
    avg_latency := listAvg (rs.map (fun r => r.latency_s))
    avg_tokens := avg_t
    efficiency := if 0 < avg_s ∧ 1 < avg_t then avg_s / log2 avg_t else 0
    deepeval_avg := if de_avgs.isEmpty then none else some (listAvg de_avgs)
    composite_score := composite_of judge_weight deepeval_weight scores de_avgs }

theorem composite_of_spec (jw dw : ℚ) (scores : List Nat) (de : List ℚ) :
    (scores ≠ [] → de ≠ [] →
      composite_of jw dw scores de
        = some (jw * (((scores.sum : ℚ) / scores.length - 1) / 4)
            + dw * (de.sum / de.length)))
    ∧ (scores ≠ [] → de = [] →
      composite_of jw dw scores de
        = some (((scores.sum : ℚ) / scores.length - 1) / 4))
    ∧ (scores = [] → de ≠ [] →
      composite_of jw dw scores de = some (de.sum / de.length))
    ∧ (scores = [] → de = [] → composite_of jw dw scores de = none) := by
  refine ⟨?_, ?_, ?_, ?_⟩ <;> intro h1 h2 <;>
    simp [composite_of, listAvg, listAvgN, h1, h2]

/-- C1: composite score over the latest run per prompt, for both the
`compare` command and the dashboard aggregation: with a judge mean and a
secondary mean available it is the weighted merge of the normalised judge
mean `(avg_judge - 1)/4` and the secondary mean; with only judge scores it
is the normalised judge mean alone; with only secondary averages it is the
secondary mean alone; with neither it is `none` — never zero. -/
theorem composite_graceful_degradation (jw dw : ℚ) (log2 : ℚ → ℚ)
    (name : String) (data : RunStore) (pids : List String)
    (scoresC scoresD : List Nat) (deC deD : List ℚ)
    (hsC : scoresC = (latest_runs data pids).filterMap (fun r => r.judge_score))
    (hdC : deC = (latest_runs data pids).filterMap (fun r => r.deepeval_avg))
    (hsD : scoresD = (stats_latest_ok data pids).filterMap (fun r => r.judge_score))
    (hdD : deD = (stats_latest_ok data pids).filterMap (fun r => r.deepeval_avg)) :
    ((scoresC ≠ [] → deC ≠ [] →
      (compare_row jw dw name data pids).composite
        = some (jw * (((scoresC.sum : ℚ) / scoresC.length - 1) / 4)
            + dw * (deC.sum / deC.length)))
    ∧ (scoresC ≠ [] → deC = [] →
      (compare_row jw dw name data pids).composite
        = some (((scoresC.sum : ℚ) / scoresC.length - 1) / 4))
    ∧ (scoresC = [] → deC ≠ [] →
      (compare_row jw dw name data pids).composite
        = some (deC.sum / deC.length))
    ∧ (scoresC = [] → deC = [] →
      (compare_row jw dw name data pids).composite = none))
    ∧ ((scoresD ≠ [] → deD ≠ [] →
      (compute_stats_row log2 jw dw name data pids).composite_score
        = some (jw * (((scoresD.sum : ℚ) / scoresD.length - 1) / 4)
            + dw * (deD.sum / deD.length)))
    ∧ (scoresD ≠ [] → deD = [] →
      (compute_stats_row log2 jw dw name data pids).composite_score
        = some (((scoresD.sum : ℚ) / scoresD.length - 1) / 4))
    ∧ (scoresD = [] → deD ≠ [] →
      (compute_stats_row log2 jw dw name data pids).composite_score
        = some (deD.sum / deD.length))
    ∧ (scoresD = [] → deD = [] →
      (compute_stats_row log2 jw dw name data pids).composite_score = none)) := by
  subst hsC hdC hsD hdD
  constructor
  · have h : (compare_row jw dw name data pids).composite
        = composite_of jw dw ((latest_runs data pids).filterMap (fun r => r.judge_score))
            ((latest_runs data pids).filterMap (fun r => r.deepeval_avg)) := rfl
    rw [h]
    exact composite_of_spec jw dw _ _
  · have h : (compute_stats_row log2 jw dw name data pids).composite_score
        = composite_of jw dw ((stats_latest_ok data pids).filterMap (fun r => r.judge_score))
            ((stats_latest_ok data pids).filterMap (fun r => r.deepeval_avg)) := rfl
    rw [h]
    exact composite_of_spec jw dw _ _

/-- Example entry: judge-scored latest run. -/
def exEntryJudged : RunEntry :=
  { timestamp := 0, api_model := "m", content := "ok", latency_s := 2,
    input_tokens := some 10, output_tokens := some 8,
    auto_checks := ⟨[], [], true⟩, judge_score := some 5,
    judge_rationale := "good", judge_model := some "j" }

/-- Example entry: deepeval-scored, judge-unscored latest run. -/
def exEntryDeepeval : RunEntry :=
  { timestamp := 1, api_model := "m", content := "ok", latency_s := 3,
    input_tokens := some 10, output_tokens := some 8,
    auto_checks := ⟨[], [], true⟩, judge_score := none,
    judge_rationale := "", judge_model := none,
    deepeval_scores := some [("correctness", some (1/2))],
    deepeval_avg := some (1/2) }

/-- Example store for aggregation witnesses. -/
def exStoreAgg : RunStore := [("P1", [exEntryJudged]), ("P2", [exEntryDeepeval])]

/-- Witness for `composite_graceful_degradation`: judge mean 5 and
secondary mean 1/2 with weights 1/2 each give composite 3/4; a prompt set
with no runs at all gives composite `none`. -/
theorem composite_graceful_degradation_witness :
    (compare_row (1/2) (1/2) "m" exStoreAgg ["P1", "P2"]).composite = some (3/4)
    ∧ (compute_stats_row (fun q => q) (1/2) (1/2) "m" exStoreAgg ["P9"]).composite_score
        = none := by
  have hs : (latest_runs exStoreAgg ["P1", "P2"]).filterMap
      (fun r => r.judge_score) = [5] := rfl
  have hd : (latest_runs exStoreAgg ["P1", "P2"]).filterMap
      (fun r => r.deepeval_avg) = [1/2] := rfl
  constructor
  · refine (((composite_graceful_degradation (1/2) (1/2) (fun q => q) "m"
      exStoreAgg ["P1", "P2"] _ _ _ _ rfl rfl rfl rfl).1).1
        (by decide) (by decide)).trans ?_
    rw [hs, hd]
    exact congrArg some (by norm_num)
  · exact ((composite_graceful_degradation (1/2) (1/2) (fun q => q) "m"
      exStoreAgg ["P9"] _ _ _ _ rfl rfl rfl rfl).2).2.2.2 (by decide) (by decide)

/-- C8: the dashboard efficiency metric equals
`avg_judge / log2(avg_output_tokens)` exactly when `avg_judge > 0` and
`avg_output_tokens > 1`, and is `0` otherwise; moreover the computation
only ever applies `log2` to arguments greater than 1 — two `log2`
implementations that agree on `(1, ∞)` yield identical statistics, so the
real `math.log2` is never evaluated outside its safe domain. -/
theorem efficiency_total_guard (log2 log2' : ℚ → ℚ) (jw dw : ℚ)
    (name : String) (data : RunStore) (pids : List String) (avg_s avg_t : ℚ)
    (hs : avg_s
      = listAvgN ((stats_latest_ok data pids).filterMap (fun r => r.judge_score)))
    (ht : avg_t
      = listAvg ((stats_latest_ok data pids).map
          (fun r => ((r.output_tokens.getD 0 : Nat) : ℚ)))) :
    (0 < avg_s → 1 < avg_t →
      (compute_stats_row log2 jw dw name data pids).efficiency
        = avg_s / log2 avg_t)
    ∧ (¬(0 < avg_s ∧ 1 < avg_t) →
      (compute_stats_row log2 jw dw name data pids).efficiency = 0)
    ∧ ((∀ q : ℚ, 1 < q → log2 q = log2' q) →
      (compute_stats_row log2 jw dw name data pids).efficiency
        = (compute_stats_row log2' jw dw name data pids).efficiency) := by
  subst hs ht
  refine ⟨fun h1 h2 => ?_, fun h => ?_, fun hagree => ?_⟩
  · simp only [compute_stats_row]
    rw [if_pos ⟨h1, h2⟩]
  · simp only [compute_stats_row]
    rw [if_neg h]
  · by_cases h : 0 < listAvgN ((stats_latest_ok data pids).filterMap
        (fun r => r.judge_score))
      ∧ 1 < listAvg ((stats_latest_ok data pids).map
          (fun r => ((r.output_tokens.getD 0 : Nat) : ℚ)))
    · simp only [compute_stats_row]
      rw [if_pos h, if_pos h, hagree _ h.2]
    · simp only [compute_stats_row]
      rw [if_neg h, if_neg h]

/-- Witness for `efficiency_total_guard`: a single latest run with judge
score 5 and 8 output tokens under an abstract `log2` constantly 3 on the
sample gives efficiency 5/3; an empty prompt set gives 0; replacing `log2`
by another function agreeing above 1 changes nothing. -/
theorem efficiency_total_guard_witness :
    (compute_stats_row (fun _ => 3) (1/2) (1/2) "m" exStoreAgg ["P1"]).efficiency
        = 5 / 3
    ∧ (compute_stats_row (fun _ => 3) (1/2) (1/2) "m" exStoreAgg []).efficiency = 0
    ∧ (compute_stats_row (fun _ => 3) (1/2) (1/2) "m" exStoreAgg ["P1"]).efficiency
        = (compute_stats_row (fun q => if 1 < q then 3 else 0) (1/2) (1/2) "m"
            exStoreAgg ["P1"]).efficiency := by
  have hs : (stats_latest_ok exStoreAgg ["P1"]).filterMap
      (fun r => r.judge_score) = [5] := rfl
  have ht : (stats_latest_ok exStoreAgg ["P1"]).map
      (fun r => ((r.output_tokens.getD 0 : Nat) : ℚ)) = [((8 : Nat) : ℚ)] := rfl
  refine ⟨?_, ?_, ?_⟩
  · refine ((efficiency_total_guard (fun _ => 3) (fun _ => 3) (1/2) (1/2) "m"
      exStoreAgg ["P1"] _ _ rfl rfl).1
        (by rw [hs]; norm_num [listAvgN])
        (by rw [ht]; norm_num [listAvg])).trans ?_
    rw [hs]
    norm_num [listAvgN]
  · exact (efficiency_total_guard (fun _ => 3) (fun _ => 3) (1/2) (1/2) "m"
      exStoreAgg [] _ _ rfl rfl).2.1
      (by norm_num [listAvgN, listAvg, stats_latest_ok, latest_runs])
  · exact (efficiency_total_guard (fun _ => 3)
      (fun q => if 1 < q then 3 else 0) (1/2) (1/2) "m"
      exStoreAgg ["P1"] _ _ rfl rfl).2.2
      (fun q hq => by rw [if_pos hq])

/-! ## Leaderboard ordering
`run.py` 346: `leaderboard.sort(key=lambda x: (x[2] > 0, x[7] or 0), reverse=True)`
`dashboard.py` 170: `leaderboard.sort(key=lambda x: (x["scored"] > 0, x["composite_score"] or 0), reverse=True)`
Both sort descending on the pair (has-judge-scores, composite-or-0). -/

/-- The Python sort key `(scored > 0, composite or 0)`: `None or 0` is `0`,
and `0.0 or 0` is also `0`, so `Option.getD 0` is numerically exact. -/
def leadKey (scored : Nat) (comp : Option ℚ) : Bool × ℚ :=
  (decide (0 < scored), comp.getD 0)

/-- Lexicographic order on sort keys (Python tuple comparison,
`false < true`). -/
def keyLE (a b : Bool × ℚ) : Prop := a.1 < b.1 ∨ (a.1 = b.1 ∧ a.2 ≤ b.2)

instance (a b : Bool × ℚ) : Decidable (keyLE a b) := by
  unfold keyLE; infer_instance

theorem keyLE_total (a b : Bool × ℚ) : keyLE a b ∨ keyLE b a := by
  unfold keyLE
  rcases a with ⟨a1, a2⟩
  rcases b with ⟨b1, b2⟩
  rcases le_total a2 b2 with h | h <;> cases a1 <;> cases b1 <;> simp [h]

theorem keyLE_trans {a b c : Bool × ℚ} (h1 : keyLE a b) (h2 : keyLE b c) :
    keyLE a c := by
  unfold keyLE at *
  rcases h1 with h1 | ⟨h1, h1'⟩
  · rcases h2 with h2 | ⟨h2, _⟩
    · exact Or.inl (lt_trans h1 h2)
    · exact Or.inl (h2 ▸ h1)
  · rcases h2 with h2 | ⟨h2, h2'⟩
    · exact Or.inl (h1 ▸ h2)
    · exact Or.inr ⟨h1.trans h2, h1'.trans h2'⟩

/-- Descending comparison used by `cmd_compare`'s `sort(..., reverse=True)`:
`a` may precede `b` iff `b`'s key is at most `a`'s. -/
def compareDesc (a b : CompareRow) : Prop :=
  keyLE (leadKey b.scored b.composite) (leadKey a.scored a.composite)

instance : DecidableRel compareDesc := fun a b =>
  decidable_of_iff
    (keyLE (leadKey b.scored b.composite) (leadKey a.scored a.composite))
    Iff.rfl

instance : IsTotal CompareRow compareDesc :=
  ⟨fun a b => keyLE_total (leadKey b.scored b.composite)
    (leadKey a.scored a.composite)⟩

instance : IsTrans CompareRow compareDesc :=
  ⟨fun _ _ _ h1 h2 => keyLE_trans h2 h1⟩

/-- `run.py` 346: the leaderboard sort of `cmd_compare` (stable descending
sort on `(scored > 0, composite or 0)`). -/
def compare_sort (leaderboard : List CompareRow) : List CompareRow :=
  leaderboard.insertionSort compareDesc

/-- Descending comparison of `compute_stats`'s leaderboard sort. -/
def statsDesc (a b : StatsRow) : Prop :=
  keyLE (leadKey b.scored b.composite_score) (leadKey a.scored a.composite_score)

instance : DecidableRel statsDesc := fun a b =>
  decidable_of_iff
    (keyLE (leadKey b.scored b.composite_score) (leadKey a.scored a.composite_score))
    Iff.rfl

instance : IsTotal StatsRow statsDesc :=
  ⟨fun a b => keyLE_total (leadKey b.scored b.composite_score)
    (leadKey a.scored a.composite_score)⟩

instance : IsTrans StatsRow statsDesc :=
  ⟨fun _ _ _ h1 h2 => keyLE_trans h2 h1⟩

/-- `dashboard.py` 170: the leaderboard sort of `compute_stats`. -/
def stats_sort (leaderboard : List StatsRow) : List StatsRow :=
  leaderboard.insertionSort statsDesc

theorem keyLE_imp {s1 s2 : Nat} {c1 c2 : Option ℚ}
    (h : keyLE (leadKey s2 c2) (leadKey s1 c1)) :
    (0 < s2 → 0 < s1) ∧ ((0 < s1 ↔ 0 < s2) → c2.getD 0 ≤ c1.getD 0) := by
  rcases h with h | ⟨h, h'⟩
  · rw [Bool.lt_iff] at h
    simp only [leadKey, decide_eq_true_eq, decide_eq_false_iff_not] at h
    constructor
    · intro hs2; exact absurd hs2 h.1
    · intro hiff; exact absurd (hiff.mp h.2) h.1
  · simp only [leadKey, decide_eq_decide] at h
    exact ⟨fun hs2 => h.mp hs2, fun _ => h'⟩

/-- C2: the leaderboard ordering (both in `cmd_compare` and in the
dashboard's `compute_stats`) is a permutation of the per-model rows that is
two-level sorted: any row placed before another has at least as large a
sort key, so every model with at least one judge-scored latest run precedes
every model with none, and among rows on the same side of that split the
composite (with a null composite ordered as 0) is non-increasing — in
particular a judge-unscored model with a nonzero secondary-only composite
never precedes any judge-scored model. -/
theorem leaderboard_two_level_sort (jw dw : ℚ) (log2 : ℚ → ℚ)
    (pids : List String) (models : List (String × RunStore)) :
    ((compare_sort (models.map (fun m => compare_row jw dw m.1 m.2 pids))).Perm
        (models.map (fun m => compare_row jw dw m.1 m.2 pids))
    ∧ (compare_sort (models.map (fun m => compare_row jw dw m.1 m.2 pids))).Pairwise
        (fun a b => (0 < b.scored → 0 < a.scored)
          ∧ ((0 < a.scored ↔ 0 < b.scored) →
              b.composite.getD 0 ≤ a.composite.getD 0)))
    ∧ ((stats_sort (models.map (fun m => compute_stats_row log2 jw dw m.1 m.2 pids))).Perm
        (models.map (fun m => compute_stats_row log2 jw dw m.1 m.2 pids))
    ∧ (stats_sort (models.map (fun m => compute_stats_row log2 jw dw m.1 m.2 pids))).Pairwise
        (fun a b => (0 < b.scored → 0 < a.scored)
          ∧ ((0 < a.scored ↔ 0 < b.scored) →
              b.composite_score.getD 0 ≤ a.composite_score.getD 0))) := by
  refine ⟨⟨List.perm_insertionSort compareDesc _, ?_⟩,
    List.perm_insertionSort statsDesc _, ?_⟩
  · exact (List.sorted_insertionSort compareDesc _).imp (fun h => keyLE_imp h)
  · exact (List.sorted_insertionSort statsDesc _).imp (fun h => keyLE_imp h)

/-! ## Evaluation orchestrator (`run.py::cmd_eval`, lines 118-267)

The network-facing collaborators are function parameters of the
orchestration environment, per the spec's component boundaries:
completion provider and secondary-metric scorer may raise (`Except`);
the automated checker is a pure function (`scripts/checks.py`). -/

/-- One prompt of the eval set (`evals/default.json`). -/
structure PromptMeta where
  id : String
  category : String
  subcategory : String
  difficulty : String
  prompt : String
  ideal : String
  criteria : List String
deriving DecidableEq, Repr

/-- Token usage returned by a completion provider
(`scripts/providers.py`). -/
structure Usage where
  input_tokens : Option Nat
  output_tokens : Option Nat
deriving DecidableEq, Repr

/-- Modelled from the spec: the result of `judge_response`
(`scripts/judge.py`, whose source is not part of this tree).  Per spec
§4.2 step 3 and §7, judge adapter failures are non-fatal and leave the
score unset, so the adapter is a total function returning
`judge_score : int|null` plus a rationale. -/
structure JudgeResult where
  judge_score : Option Nat
  judge_rationale : String
deriving DecidableEq, Repr

/-- The result of `scripts/deepeval_scorer.py::score_with_deepeval`:
per-metric 0-1 scores (each possibly `None`) and their average over the
non-null subset (or `None`). -/
structure DeepEvalResult where
  deepeval_scores : List (String × Option ℚ)
  deepeval_avg : Option ℚ
deriving DecidableEq, Repr

/-- The environment of one `cmd_eval` invocation: configuration and
external collaborators.  `judge` is `none` when no judge provider was set
up (no judge configured, judge = eval model, or judge init failed) while
`judge_model_name` still carries the configured name recorded into
entries; `latency` abstracts the wall-clock measurement around the
provider call. -/
structure EvalEnv where
  api_model : String
  judge_model_name : Option String
  judge : Option (PromptMeta → String → AutoChecks → JudgeResult)
  deepeval_enabled : Bool
  deepeval : PromptMeta → Except String DeepEvalResult
  complete : PromptMeta → Except String (String × Usage)
  check : PromptMeta → String → AutoChecks
  latency : PromptMeta → ℚ

/-- The Run Entry built for one prompt by the body of `cmd_eval`'s loop
(run.py 185-242): on provider success, a full entry with checker output,
then judge fields if a judge provider exists, then deepeval fields if
enabled and the scorer call succeeds (a scorer exception is caught and
leaves the fields absent); on provider failure, an error entry with empty
content, the error message, and a single forced `API_ERROR` flag with
`passed = False`. -/
def eval_entry (env : EvalEnv) (now : Nat) (pmeta : PromptMeta) : RunEntry :=
  match env.complete pmeta with
  | .ok (content, usage) =>
    let auto := env.check pmeta content
    let base : RunEntry :=
      { timestamp := now, api_model := env.api_model, content := content,
        latency_s := env.latency pmeta, input_tokens := usage.input_tokens,
        output_tokens := usage.output_tokens, auto_checks := auto,
        judge_score := none, judge_rationale := "",
        judge_model := env.judge_model_name }
    let judged := match env.judge with
      | some j =>
        let jr := j pmeta content auto
        { base with judge_score := jr.judge_score,
                    judge_rationale := jr.judge_rationale }
      | none => base
    if env.deepeval_enabled then
      match env.deepeval pmeta with
      | .ok de => { judged with deepeval_scores := some de.deepeval_scores,
                                deepeval_avg := de.deepeval_avg }
      | .error _ => judged
    else judged
  | .error msg =>
    { timestamp := now, api_model := env.api_model, content := "",
      latency_s := env.latency pmeta, input_tokens := none,
      output_tokens := none,
      auto_checks := { flags := ["API_ERROR"], auto_scores := [], passed := false },
      judge_score := none, judge_rationale := "",
      judge_model := env.judge_model_name, error := some msg }

/-- The per-prompt loop of `cmd_eval` (run.py 181-250): build the entry,
append it and persist, then move to the next prompt.  Every prompt produces
exactly one appended entry regardless of provider/judge/scorer outcome. -/
def eval_loop (env : EvalEnv) : RunStore → Nat → List PromptMeta → RunStore
  | st, _, [] => st
  | st, now, pmeta :: rest =>
      eval_loop env (appendRun st pmeta.id (eval_entry env now pmeta)) (now + 1) rest

/-- `cmd_eval` after configuration checks (run.py 134-250): drop prompts
that already have results unless `--rerun` was given; stop as a no-op when
nothing is left; otherwise run the per-prompt loop. -/
def cmd_eval (env : EvalEnv) (rerun : Bool) (prompts : List PromptMeta)
    (now : Nat) (st : RunStore) : RunStore :=
  let already_done := storeKeys st
  let prompts1 :=
    if (prompts.any (fun p => decide (p.id ∈ already_done))) && !rerun
    then prompts.filter (fun p => !decide (p.id ∈ already_done))
    else prompts
  if prompts1.isEmpty then st else eval_loop env st now prompts1

/-- Specification artifact: the store consisting of exactly one
single-entry history per prompt, in listed order, with consecutive
timestamps — the expected output of evaluating a fresh model. -/
def fresh_entries (env : EvalEnv) : Nat → List PromptMeta → RunStore
  | _, [] => []
  | now, pmeta :: rest =>
      (pmeta.id, [eval_entry env now pmeta]) :: fresh_entries env (now + 1) rest

theorem eval_loop_fresh (env : EvalEnv) :
    ∀ (prompts : List PromptMeta) (st : RunStore) (now : Nat),
    (∀ p ∈ prompts, p.id ∉ storeKeys st) → (prompts.map (fun p => p.id)).Nodup →
    eval_loop env st now prompts = st ++ fresh_entries env now prompts := by
  intro prompts
  induction prompts with
  | nil => intro st now _ _; simp [eval_loop, fresh_entries]
  | cons p ps ih =>
    intro st now h hnd
    have h1 : p.id ∉ storeKeys st := h p (List.mem_cons_self p ps)
    rw [eval_loop, appendRun_of_not_mem _ h1, ih _ (now + 1) ?_ ?_]
    · simp [fresh_entries]
    · intro q hq
      have hqs : q.id ∉ storeKeys st := h q (List.mem_cons_of_mem p hq)
      have hqp : q.id ≠ p.id := by
        intro hh
        have hpnotin : p.id ∉ ps.map (fun p => p.id) :=
          (List.nodup_cons.mp (by simpa using hnd)).1
        exact hpnotin (hh ▸ List.mem_map_of_mem (fun p => p.id) hq)
      simp [storeKeys, hqs, hqp]
      simpa [storeKeys] using hqs
    · exact (List.nodup_cons.mp (by simpa using hnd)).2

theorem eval_loop_lookup_of_not_mem (env : EvalEnv) :
    ∀ (prompts : List PromptMeta) (st : RunStore) (now : Nat) (pid : String),
    pid ∉ prompts.map (fun p => p.id) →
    lookupRuns (eval_loop env st now prompts) pid = lookupRuns st pid := by
  intro prompts
  induction prompts with
  | nil => intro st now pid _; rfl
  | cons p ps ih =>
    intro st now pid h
    simp only [List.map_cons, List.mem_cons, not_or] at h
    rw [eval_loop, ih _ _ _ (by simpa using h.2),
      lookupRuns_appendRun_ne _ _ h.1]

theorem cmd_eval_fresh (env : EvalEnv) (rerun : Bool)
    (prompts : List PromptMeta) (now : Nat)
    (hnd : (prompts.map (fun p => p.id)).Nodup) :
    cmd_eval env rerun prompts now [] = fresh_entries env now prompts := by
  cases prompts with
  | nil => rfl
  | cons p ps =>
    have hfresh := eval_loop_fresh env (p :: ps) [] now (by simp [storeKeys]) hnd
    have hany : ((p :: ps).any (fun q => decide (q.id ∈ storeKeys ([] : RunStore)))) = false := by
      simp [storeKeys]
    simp only [cmd_eval, hany, Bool.false_and, Bool.false_eq_true, if_false,
      List.isEmpty_cons]
    simpa using hfresh

theorem cmd_eval_skip (env : EvalEnv) (prompts : List PromptMeta)
    (now : Nat) (st : RunStore) (p : PromptMeta) (hp : p ∈ prompts)
    (hpin : p.id ∈ storeKeys st) :
    lookupRuns (cmd_eval env false prompts now st) p.id = lookupRuns st p.id := by
  have hany : (prompts.any (fun q => decide (q.id ∈ storeKeys st))) = true :=
    List.any_eq_true.mpr ⟨p, hp, by simpa using hpin⟩
  simp only [cmd_eval, hany, Bool.not_false, Bool.and_self, if_true]
  by_cases he : (prompts.filter (fun q => !decide (q.id ∈ storeKeys st))).isEmpty
  · rw [if_pos he]
  · rw [if_neg he]
    apply eval_loop_lookup_of_not_mem
    intro hmem
    rcases List.mem_map.mp hmem with ⟨q, hq, hqid⟩
    have hql := List.of_mem_filter hq
    rw [hqid] at hql
    simp [hpin] at hql

theorem cmd_eval_noop (env : EvalEnv) (prompts : List PromptMeta)
    (now : Nat) (st : RunStore)
    (hall : ∀ p ∈ prompts, p.id ∈ storeKeys st) :
    cmd_eval env false prompts now st = st := by
  cases prompts with
  | nil => rfl
  | cons a l =>
    have hany : ((a :: l).any (fun q => decide (q.id ∈ storeKeys st))) = true :=
      List.any_eq_true.mpr ⟨a, List.mem_cons_self a l,
        by simpa using hall a (List.mem_cons_self a l)⟩
    have hfilter : (a :: l).filter (fun q => !decide (q.id ∈ storeKeys st)) = [] := by
      rw [List.filter_eq_nil_iff]
      intro q hq
      simp [hall q hq]
    simp only [cmd_eval, hany, Bool.not_false, Bool.and_self, if_true, hfilter,
      List.isEmpty_nil, if_true]

/-- C9: evaluating a prompt set against a model with no prior runs appends
exactly one Run Entry per prompt, keyed in listed order with one
single-entry history each; without `--rerun`, any prompt that already has a
run is skipped — its stored history is untouched — and when every filtered
prompt is already done the command is a complete no-op. -/
theorem eval_filtered_prompt_semantics (env : EvalEnv) (rerun : Bool)
    (prompts : List PromptMeta) (now : Nat) (st : RunStore) :
    ((prompts.map (fun p => p.id)).Nodup →
      cmd_eval env rerun prompts now [] = fresh_entries env now prompts)
    ∧ (rerun = false → ∀ p ∈ prompts, p.id ∈ storeKeys st →
      lookupRuns (cmd_eval env false prompts now st) p.id = lookupRuns st p.id)
    ∧ (rerun = false → (∀ p ∈ prompts, p.id ∈ storeKeys st) →
      cmd_eval env false prompts now st = st) :=
  ⟨fun hnd => cmd_eval_fresh env rerun prompts now hnd,
    fun _ p hp hpin => cmd_eval_skip env prompts now st p hp hpin,
    fun _ hall => cmd_eval_noop env prompts now st hall⟩

/-- Example judge adapter: fails (score unset) exactly on content "FAIL". -/
def exJudge : PromptMeta → String → AutoChecks → JudgeResult :=
  fun _ content _ =>
    if content = "FAIL" then ⟨none, "judge call failed"⟩ else ⟨some 4, "solid"⟩

/-- Example orchestration environment: provider fails on prompt text
"BOOM", otherwise echoes the prompt; judge as in `exJudge`; deepeval off. -/
def exEnv : EvalEnv :=
  { api_model := "provider-model-1"
    judge_model_name := some "judge-1"
    judge := some exJudge
    deepeval_enabled := false
    deepeval := fun _ => .error "not enabled"
    complete := fun p =>
      if p.prompt = "BOOM" then .error "rate limited"
      else .ok (p.prompt, ⟨some 3, some 7⟩)
    check := fun _ _ => ⟨[], [], true⟩
    latency := fun _ => 2 }

def exPromptA : PromptMeta := ⟨"P1", "coding", "fix", "easy", "hello", "i", []⟩

def exPromptB : PromptMeta := ⟨"P2", "coding", "fix", "hard", "world", "i", []⟩

/-- Prompt on which the judge adapter fails. -/
def exPromptFail : PromptMeta := ⟨"P3", "coding", "fix", "easy", "FAIL", "i", []⟩

/-- Prompt on which the completion provider fails. -/
def exPromptBoom : PromptMeta := ⟨"P4", "coding", "fix", "easy", "BOOM", "i", []⟩

/-- Witness for `eval_filtered_prompt_semantics` at a concrete
environment: two fresh prompts yield the two-history store in listed
order; a prompt already present in `exStoreAgg` is skipped and the command
is a no-op. -/
theorem eval_filtered_prompt_semantics_witness :
    cmd_eval exEnv false [exPromptA, exPromptB] 10 []
        = fresh_entries exEnv 10 [exPromptA, exPromptB]
    ∧ lookupRuns (cmd_eval exEnv false [exPromptA] 10 exStoreAgg) "P1"
        = lookupRuns exStoreAgg "P1"
    ∧ cmd_eval exEnv false [exPromptA] 10 exStoreAgg = exStoreAgg :=
  ⟨(eval_filtered_prompt_semantics exEnv false [exPromptA, exPromptB] 10 []).1
      (by decide),
    (eval_filtered_prompt_semantics exEnv false [exPromptA] 10 exStoreAgg).2.1
      rfl exPromptA (by decide) (by decide),
    (eval_filtered_prompt_semantics exEnv false [exPromptA] 10 exStoreAgg).2.2
      rfl (by decide)⟩

/-- C5: a judge adapter failure does not abort the run.  When the
completion provider succeeds on a prompt and the judge leaves the score
unset, the persisted entry still records the completed response content,
with `judge_score` unset and `error` absent, and the loop still processes
every remaining prompt. -/
theorem judge_failure_nonfatal (env : EvalEnv) (p : PromptMeta)
    (ps : List PromptMeta) (now : Nat) (c : String) (u : Usage)
    (j : PromptMeta → String → AutoChecks → JudgeResult)
    (hj : env.judge = some j)
    (hc : env.complete p = .ok (c, u))
    (hfail : (j p c (env.check p c)).judge_score = none)
    (hnd : ((p :: ps).map (fun q => q.id)).Nodup) :
    (eval_entry env now p).content = c
    ∧ (eval_entry env now p).judge_score = none
    ∧ (eval_entry env now p).error = none
    ∧ eval_loop env [] now (p :: ps)
        = (p.id, [eval_entry env now p]) :: fresh_entries env (now + 1) ps := by
  have key : (eval_entry env now p).content = c
      ∧ (eval_entry env now p).judge_score = none
      ∧ (eval_entry env now p).error = none := by
    simp only [eval_entry, hc, hj]
    cases hde : env.deepeval_enabled
    · simp [hfail]
    · cases hres : env.deepeval p <;> simp [hres, hfail]
  refine ⟨key.1, key.2.1, key.2.2, ?_⟩
  rw [eval_loop_fresh env (p :: ps) [] now (by simp [storeKeys]) hnd]
  rfl

/-- Witness for `judge_failure_nonfatal`: the judge fails on `exPromptFail`
yet its entry keeps the provider content with no error, and `exPromptB`
is still processed afterwards. -/
theorem judge_failure_nonfatal_witness :
    (eval_entry exEnv 3 exPromptFail).content = "FAIL"
    ∧ (eval_entry exEnv 3 exPromptFail).judge_score = none
    ∧ (eval_entry exEnv 3 exPromptFail).error = none
    ∧ eval_loop exEnv [] 3 [exPromptFail, exPromptB]
        = ("P3", [eval_entry exEnv 3 exPromptFail])
            :: fresh_entries exEnv 4 [exPromptB] :=
  judge_failure_nonfatal exEnv exPromptFail [exPromptB] 3 "FAIL"
    ⟨some 3, some 7⟩ exJudge rfl rfl rfl (by decide)

/-- C6: a completion-provider failure is recorded, not fatal.  The entry
for the failing prompt has empty content, the failure message in `error`,
and auto-checks consisting of exactly the single forced `API_ERROR` flag
with `passed = false`; a later prompt in the same batch still gets its own
(successful, error-free) entry. -/
theorem provider_failure_entry (env : EvalEnv) (p q : PromptMeta) (now : Nat)
    (m c : String) (u : Usage)
    (hp : env.complete p = .error m)
    (hq : env.complete q = .ok (c, u))
    (hne : q.id ≠ p.id) :
    (eval_entry env now p).content = ""
    ∧ (eval_entry env now p).error = some m
    ∧ (eval_entry env now p).auto_checks
        = { flags := ["API_ERROR"], auto_scores := [], passed := false }
    ∧ (eval_entry env (now + 1) q).error = none
    ∧ eval_loop env [] now [p, q]
        = [(p.id, [eval_entry env now p]), (q.id, [eval_entry env (now + 1) q])] := by
  refine ⟨?_, ?_, ?_, ?_, ?_⟩
  · simp [eval_entry, hp]
  · simp [eval_entry, hp]
  · simp [eval_entry, hp]
  · simp only [eval_entry, hq]
    cases hj : env.judge <;>
      · cases hde : env.deepeval_enabled
        · simp
        · cases hres : env.deepeval q <;> simp [hres]
  · have hne' : ¬p.id = q.id := fun hh => hne hh.symm
    rw [eval_loop_fresh env [p, q] [] now (by simp [storeKeys]) (by simp [hne'])]
    rfl

/-- Witness for `provider_failure_entry`: the provider fails on
`exPromptBoom`; `exPromptB` afterwards still succeeds. -/
theorem provider_failure_entry_witness :
    (eval_entry exEnv 3 exPromptBoom).content = ""
    ∧ (eval_entry exEnv 3 exPromptBoom).error = some "rate limited"
    ∧ (eval_entry exEnv 3 exPromptBoom).auto_checks
        = { flags := ["API_ERROR"], auto_scores := [], passed := false }
    ∧ (eval_entry exEnv 4 exPromptB).error = none
    ∧ eval_loop exEnv [] 3 [exPromptBoom, exPromptB]
        = [("P4", [eval_entry exEnv 3 exPromptBoom]),
            ("P2", [eval_entry exEnv 4 exPromptB])] :=
  provider_failure_entry exEnv exPromptBoom exPromptB 3 "rate limited"
    "world" ⟨some 3, some 7⟩ rfl rfl (by decide)

/-! ## Re-scoring workflows (`run.py::cmd_rejudge` 466-586 and
`run.py::cmd_deepeval` 589-706), per model -/

/-- `prompts_by_id.get(pid)`: association-list lookup of the canonical
prompt set. -/
def lookupMeta : List (String × PromptMeta) → String → Option PromptMeta
  | [], _ => none
  | (q, pm) :: rest, pid => if q = pid then some pm else lookupMeta rest pid

/-- The environment of a `rejudge` invocation: the current judge model
name, the judge adapter (`judge_response`, which the command guards with
try/except, hence `Except`), and the canonical prompt set. -/
structure RejudgeEnv where
  judge_model_name : String
  judge : PromptMeta → String → AutoChecks → Except String JudgeResult
  prompts_by_id : List (String × PromptMeta)

/-- The environment of a `deepeval` re-scoring invocation. -/
structure RescoreEnv where
  scorer : PromptMeta → String → Except String DeepEvalResult
  prompts_by_id : List (String × PromptMeta)

/-- The body of the candidate-selection loop of `cmd_rejudge`
(run.py 521-528): skip silently when there is no usable latest run or it
recorded an error; count as skipped when already scored by the current
judge and `--force` is off; otherwise add to `to_judge`. -/
def rejudge_select_step (jmn : String) (force : Bool) (model_data : RunStore)
    (acc : List String × Nat) (pid : String) : List String × Nat :=
  match latest_run model_data pid with
  | none => acc
  | some run =>
    if strTruthy run.error then acc
    else if !force && decide (run.judge_model = some jmn) && run.judge_score.isSome
    then (acc.1, acc.2 + 1)
    else (acc.1 ++ [pid], acc.2)

/-- The candidate-selection loop of `cmd_rejudge` (run.py 519-528),
returning `(to_judge, skipped)`. -/
def rejudge_select (jmn : String) (force : Bool) (model_data : RunStore)
    (pids : List String) : List String × Nat :=
  pids.foldl (rejudge_select_step jmn force model_data) ([], 0)

/-- The body of the candidate-selection loop of `cmd_deepeval`
(run.py 639-647): same shape, keyed on existing truthy `deepeval_scores`. -/
def deepeval_select_step (force : Bool) (model_data : RunStore)
    (acc : List String × Nat) (pid : String) : List String × Nat :=
  match latest_run model_data pid with
  | none => acc
  | some run =>
    if strTruthy run.error then acc
    else if !force && deTruthy run.deepeval_scores
    then (acc.1, acc.2 + 1)
    else (acc.1 ++ [pid], acc.2)

/-- The candidate-selection loop of `cmd_deepeval` (run.py 639-647). -/
def deepeval_select (force : Bool) (model_data : RunStore)
    (pids : List String) : List String × Nat :=
  pids.foldl (deepeval_select_step force model_data) ([], 0)

/-- The fresh entry appended by `cmd_rejudge` (run.py 551-562): copies the
stored response, latency, token counts and auto-checks from the latest
run, refreshes the judge fields and timestamp.  The source dict carries no
`deepeval_scores` / `deepeval_avg` / `error` keys, so those fields are
absent in the new entry. -/
def rejudge_entry (now : Nat) (judge_model_name : String) (run : RunEntry)
    (jr : JudgeResult) : RunEntry :=
  { timestamp := now
    api_model := run.api_model
    content := run.content
    latency_s := run.latency_s
    input_tokens := run.input_tokens
    output_tokens := run.output_tokens
    auto_checks := run.auto_checks
    judge_score := jr.judge_score
    judge_rationale := jr.judge_rationale
    judge_model := some judge_model_name }

/-- The fresh entry appended by `cmd_deepeval` (run.py 668-681): copies
everything from the latest run — including the judge fields — and refreshes
the deepeval fields and timestamp.  The source dict carries no `error`
key. -/
def deepeval_entry (now : Nat) (run : RunEntry) (de : DeepEvalResult) : RunEntry :=
  { timestamp := now
    api_model := run.api_model
    content := run.content
    latency_s := run.latency_s
    input_tokens := run.input_tokens
    output_tokens := run.output_tokens
    auto_checks := run.auto_checks
    judge_score := run.judge_score
    judge_rationale := run.judge_rationale
    judge_model := run.judge_model
    deepeval_scores := some de.deepeval_scores
    deepeval_avg := de.deepeval_avg }

/-- Processing of one `to_judge` candidate by `cmd_rejudge`
(run.py 536-577): re-read the latest run, look up the prompt metadata
(skip with a notice when gone), call the judge against the stored content,
and on return append the refreshed entry; a judge exception appends
nothing.  Result: (store, judged increment, errors increment). -/
def rejudge_step (env : RejudgeEnv) (now : Nat) (model_data : RunStore)
    (pid : String) : RunStore × Nat × Nat :=
  match latest_run model_data pid with
  | none => (model_data, 0, 0)
  | some run =>
    match lookupMeta env.prompts_by_id pid with
    | none => (model_data, 0, 0)
    | some pmeta =>
      match env.judge pmeta run.content run.auto_checks with
      | .ok jr =>
        (appendRun model_data pid (rejudge_entry now env.judge_model_name run jr),
          if jr.judge_score.isSome then 1 else 0,
          if jr.judge_score.isSome then 0 else 1)
      | .error _ => (model_data, 0, 1)

/-- The processing loop of `cmd_rejudge` over `to_judge`, accumulating
(judged, errors). -/
def rejudge_process (env : RejudgeEnv) :
    RunStore → Nat → List String → RunStore × Nat × Nat
  | model_data, _, [] => (model_data, 0, 0)
  | model_data, now, pid :: rest =>
    let s := rejudge_step env now model_data pid
    let r := rejudge_process env s.1 (now + 1) rest
    (r.1, s.2.1 + r.2.1, s.2.2 + r.2.2)

/-- Processing of one `to_score` candidate by `cmd_deepeval`
(run.py 655-697): same shape as rejudge, with the deepeval scorer; the
scored/errored counters key on whether the returned average is null. -/
def deepeval_step (env : RescoreEnv) (now : Nat) (model_data : RunStore)
    (pid : String) : RunStore × Nat × Nat :=
  match latest_run model_data pid with
  | none => (model_data, 0, 0)
  | some run =>
    match lookupMeta env.prompts_by_id pid with
    | none => (model_data, 0, 0)
    | some pmeta =>
      match env.scorer pmeta run.content with
      | .ok de =>
        (appendRun model_data pid (deepeval_entry now run de),
          if de.deepeval_avg.isSome then 1 else 0,
          if de.deepeval_avg.isSome then 0 else 1)
      | .error _ => (model_data, 0, 1)

/-- The processing loop of `cmd_deepeval` over `to_score`. -/
def deepeval_process (env : RescoreEnv) :
    RunStore → Nat → List String → RunStore × Nat × Nat
  | model_data, _, [] => (model_data, 0, 0)
  | model_data, now, pid :: rest =>
    let s := deepeval_step env now model_data pid
    let r := deepeval_process env s.1 (now + 1) rest
    (r.1, s.2.1 + r.2.1, s.2.2 + r.2.2)

/-- `cmd_rejudge` for one model (run.py 513-579): candidates are the
stored prompt ids, selection then processing, one save at the end (the
save itself is external).  Result: (store, judged, skipped, errors). -/
def cmd_rejudge_model (env : RejudgeEnv) (force : Bool) (now : Nat)
    (model_data : RunStore) : RunStore × Nat × Nat × Nat :=
  let sel := rejudge_select env.judge_model_name force model_data
    (storeKeys model_data)
  let pr := rejudge_process env model_data now sel.1
  (pr.1, pr.2.1, sel.2, pr.2.2)

/-- `cmd_deepeval` for one model (run.py 629-699), with the optional
explicit prompt-id filter (run.py 635-637). -/
def cmd_deepeval_model (env : RescoreEnv) (force : Bool)
    (filter_pids : Option (List String)) (now : Nat)
    (model_data : RunStore) : RunStore × Nat × Nat × Nat :=
  let pids := match filter_pids with
    | some f => (storeKeys model_data).filter (fun p => decide (p ∈ f))
    | none => storeKeys model_data
  let sel := deepeval_select force model_data pids
  let pr := deepeval_process env model_data now sel.1
  (pr.1, pr.2.1, sel.2, pr.2.2)

/-- Whether a candidate id lands in `to_judge`: a usable latest run with a
falsy error that is not (already scored by the current judge without
`--force`). -/
def rejudge_selected (jmn : String) (force : Bool) (model_data : RunStore)
    (pid : String) : Bool :=
  match latest_run model_data pid with
  | none => false
  | some run =>
    !strTruthy run.error
      && !(!force && decide (run.judge_model = some jmn) && run.judge_score.isSome)

/-- Whether a candidate id increments `cmd_rejudge`'s skipped counter:
a usable latest run with falsy error, already scored by the current judge,
without `--force`.  An errored latest run does NOT count. -/
def rejudge_skipped (jmn : String) (force : Bool) (model_data : RunStore)
    (pid : String) : Bool :=
  match latest_run model_data pid with
  | none => false
  | some run =>
    !strTruthy run.error
      && (!force && decide (run.judge_model = some jmn) && run.judge_score.isSome)

/-- `to_score` membership for `cmd_deepeval`. -/
def deepeval_selected (force : Bool) (model_data : RunStore)
    (pid : String) : Bool :=
  match latest_run model_data pid with
  | none => false
  | some run => !strTruthy run.error && !(!force && deTruthy run.deepeval_scores)

/-- Skip-counter membership for `cmd_deepeval`. -/
def deepeval_skipped (force : Bool) (model_data : RunStore)
    (pid : String) : Bool :=
  match latest_run model_data pid with
  | none => false
  | some run => !strTruthy run.error && (!force && deTruthy run.deepeval_scores)

theorem rejudge_select_go (jmn : String) (force : Bool) (model_data : RunStore) :
    ∀ (pids : List String) (acc : List String × Nat),
    pids.foldl (rejudge_select_step jmn force model_data) acc
      = (acc.1 ++ pids.filter (rejudge_selected jmn force model_data),
          acc.2 + pids.countP (rejudge_skipped jmn force model_data)) := by
  intro pids
  induction pids with
  | nil => intro acc; simp
  | cons pid rest ih =>
    intro acc
    rw [List.foldl_cons, ih, List.filter_cons, List.countP_cons]
    unfold rejudge_select_step rejudge_selected rejudge_skipped
    cases hl : latest_run model_data pid with
    | none => simp
    | some run =>
      by_cases he : strTruthy run.error = true
      · simp [he]
      · by_cases hc : (!force && decide (run.judge_model = some jmn)
            && run.judge_score.isSome) = true
        · simp [he, hc]
          omega
        · simp [he, hc]

theorem rejudge_select_spec (jmn : String) (force : Bool)
    (model_data : RunStore) (pids : List String) :
    rejudge_select jmn force model_data pids
      = (pids.filter (rejudge_selected jmn force model_data),
          pids.countP (rejudge_skipped jmn force model_data)) := by
  rw [rejudge_select, rejudge_select_go]
  simp

theorem deepeval_select_go (force : Bool) (model_data : RunStore) :
    ∀ (pids : List String) (acc : List String × Nat),
    pids.foldl (deepeval_select_step force model_data) acc
      = (acc.1 ++ pids.filter (deepeval_selected force model_data),
          acc.2 + pids.countP (deepeval_skipped force model_data)) := by
  intro pids
  induction pids with
  | nil => intro acc; simp
  | cons pid rest ih =>
    intro acc
    rw [List.foldl_cons, ih, List.filter_cons, List.countP_cons]
    unfold deepeval_select_step deepeval_selected deepeval_skipped
    cases hl : latest_run model_data pid with
    | none => simp
    | some run =>
      by_cases he : strTruthy run.error = true
      · simp [he]
      · by_cases hc : (!force && deTruthy run.deepeval_scores) = true
        · simp [he, hc]
          omega
        · simp [he, hc]

theorem deepeval_select_spec (force : Bool) (model_data : RunStore)
    (pids : List String) :
    deepeval_select force model_data pids
      = (pids.filter (deepeval_selected force model_data),
          pids.countP (deepeval_skipped force model_data)) := by
  rw [deepeval_select, deepeval_select_go]
  simp

theorem rejudge_step_lookup_ne (env : RejudgeEnv) (now : Nat)
    (model_data : RunStore) {q pid : String} (h : pid ≠ q) :
    lookupRuns (rejudge_step env now model_data q).1 pid
      = lookupRuns model_data pid := by
  unfold rejudge_step
  split
  · rfl
  · split
    · rfl
    · split
      · exact lookupRuns_appendRun_ne model_data _ h
      · rfl

theorem rejudge_process_lookup_of_not_mem (env : RejudgeEnv) :
    ∀ (tj : List String) (model_data : RunStore) (now : Nat) (pid : String),
    pid ∉ tj →
    lookupRuns (rejudge_process env model_data now tj).1 pid
      = lookupRuns model_data pid := by
  intro tj
  induction tj with
  | nil => intro model_data now pid _; rfl
  | cons q rest ih =>
    intro model_data now pid h
    simp only [List.mem_cons, not_or] at h
    rw [rejudge_process]
    simp only []
    rw [ih _ _ _ h.2, rejudge_step_lookup_ne env now model_data h.1]

theorem rejudge_process_append (env : RejudgeEnv) :
    ∀ (tj : List String) (model_data : RunStore) (now : Nat) (pid : String)
      (run : RunEntry) (pmeta : PromptMeta) (jr : JudgeResult),
    tj.Nodup → pid ∈ tj →
    latest_run model_data pid = some run →
    lookupMeta env.prompts_by_id pid = some pmeta →
    env.judge pmeta run.content run.auto_checks = Except.ok jr →
    ∃ k, lookupRuns (rejudge_process env model_data now tj).1 pid
      = lookupRuns model_data pid
          ++ [rejudge_entry (now + k) env.judge_model_name run jr] := by
  intro tj
  induction tj with
  | nil => intro _ _ _ _ _ _ _ hmem; cases hmem
  | cons q rest ih =>
    intro model_data now pid run pmeta jr hnd hmem hl hm hj
    rcases List.mem_cons.mp hmem with rfl | hmem'
    · refine ⟨0, ?_⟩
      rw [rejudge_process]
      simp only []
      have hstep : (rejudge_step env now model_data pid).1
          = appendRun model_data pid
              (rejudge_entry now env.judge_model_name run jr) := by
        unfold rejudge_step
        simp only [hl, hm, hj]
      rw [rejudge_process_lookup_of_not_mem env rest _ (now + 1) pid
        (List.nodup_cons.mp hnd).1, hstep, lookupRuns_appendRun_self]
      simp
    · have hqp : pid ≠ q := by
        intro hh
        exact (List.nodup_cons.mp hnd).1 (hh ▸ hmem')
      have hpres : lookupRuns (rejudge_step env now model_data q).1 pid
          = lookupRuns model_data pid :=
        rejudge_step_lookup_ne env now model_data hqp
      have hl' : latest_run (rejudge_step env now model_data q).1 pid = some run := by
        rw [latest_run, hpres]
        exact hl
      rcases ih (rejudge_step env now model_data q).1 (now + 1) pid run pmeta jr
        (List.nodup_cons.mp hnd).2 hmem' hl' hm hj with ⟨k, hk⟩
      refine ⟨k + 1, ?_⟩
      rw [rejudge_process]
      simp only []
      rw [hk, hpres]
      have : now + 1 + k = now + (k + 1) := by omega
      rw [this]

theorem deepeval_step_lookup_ne (env : RescoreEnv) (now : Nat)
    (model_data : RunStore) {q pid : String} (h : pid ≠ q) :
    lookupRuns (deepeval_step env now model_data q).1 pid
      = lookupRuns model_data pid := by
  unfold deepeval_step
  split
  · rfl
  · split
    · rfl
    · split
      · exact lookupRuns_appendRun_ne model_data _ h
      · rfl

theorem deepeval_process_lookup_of_not_mem (env : RescoreEnv) :
    ∀ (ts : List String) (model_data : RunStore) (now : Nat) (pid : String),
    pid ∉ ts →
    lookupRuns (deepeval_process env model_data now ts).1 pid
      = lookupRuns model_data pid := by
  intro ts
  induction ts with
  | nil => intro model_data now pid _; rfl
  | cons q rest ih =>
    intro model_data now pid h
    simp only [List.mem_cons, not_or] at h
    rw [deepeval_process]
    simp only []
    rw [ih _ _ _ h.2, deepeval_step_lookup_ne env now model_data h.1]

theorem deepeval_process_append (env : RescoreEnv) :
    ∀ (ts : List String) (model_data : RunStore) (now : Nat) (pid : String)
      (run : RunEntry) (pmeta : PromptMeta) (de : DeepEvalResult),
    ts.Nodup → pid ∈ ts →
    latest_run model_data pid = some run →
    lookupMeta env.prompts_by_id pid = some pmeta →
    env.scorer pmeta run.content = Except.ok de →
    ∃ k, lookupRuns (deepeval_process env model_data now ts).1 pid
      = lookupRuns model_data pid ++ [deepeval_entry (now + k) run de] := by
  intro ts
  induction ts with
  | nil => intro _ _ _ _ _ _ _ hmem; cases hmem
  | cons q rest ih =>
    intro model_data now pid run pmeta de hnd hmem hl hm hj
    rcases List.mem_cons.mp hmem with rfl | hmem'
    · refine ⟨0, ?_⟩
      rw [deepeval_process]
      simp only []
      have hstep : (deepeval_step env now model_data pid).1
          = appendRun model_data pid (deepeval_entry now run de) := by
        unfold deepeval_step
        simp only [hl, hm, hj]
      rw [deepeval_process_lookup_of_not_mem env rest _ (now + 1) pid
        (List.nodup_cons.mp hnd).1, hstep, lookupRuns_appendRun_self]
      simp
    · have hqp : pid ≠ q := by
        intro hh
        exact (List.nodup_cons.mp hnd).1 (hh ▸ hmem')
      have hpres : lookupRuns (deepeval_step env now model_data q).1 pid
          = lookupRuns model_data pid :=
        deepeval_step_lookup_ne env now model_data hqp
      have hl' : latest_run (deepeval_step env now model_data q).1 pid = some run := by
        rw [latest_run, hpres]
        exact hl
      rcases ih (deepeval_step env now model_data q).1 (now + 1) pid run pmeta de
        (List.nodup_cons.mp hnd).2 hmem' hl' hm hj with ⟨k, hk⟩
      refine ⟨k + 1, ?_⟩
      rw [deepeval_process]
      simp only []
      rw [hk, hpres]
      have : now + 1 + k = now + (k + 1) := by omega
      rw [this]

/-- Latest run that recorded a completion error. -/
def exRunErr : RunEntry :=
  { timestamp := 0, api_model := "m", content := "", latency_s := 1,
    input_tokens := none, output_tokens := none,
    auto_checks := ⟨["API_ERROR"], [], false⟩, judge_score := none,
    judge_rationale := "", judge_model := some "judge-1",
    error := some "boom" }

/-- Store whose only candidate has an errored latest run. -/
def exStoreErr : RunStore := [("E1", [exRunErr])]

/-- Latest run scored by a retired judge and carrying deepeval scores. -/
def exRunScored : RunEntry :=
  { timestamp := 5, api_model := "m", content := "answer", latency_s := 2,
    input_tokens := some 4, output_tokens := some 6,
    auto_checks := ⟨[], [], true⟩, judge_score := some 3,
    judge_rationale := "ok", judge_model := some "old-judge",
    deepeval_scores := some [("correctness", some (9/10))],
    deepeval_avg := some (9/10) }

/-- Store whose only candidate is `exRunScored`. -/
def exStoreScored : RunStore := [("P1", [exRunScored])]

/-- Example rejudge environment with an always-succeeding judge. -/
def exRejudgeEnv : RejudgeEnv :=
  { judge_model_name := "judge-1"
    judge := fun _ _ _ => Except.ok ⟨some 4, "fine"⟩
    prompts_by_id := [("P1", exPromptA), ("E1", exPromptB)] }

/-- Example rescore environment with an always-succeeding scorer. -/
def exRescoreEnv : RescoreEnv :=
  { scorer := fun _ _ => Except.ok ⟨[("correctness", some 1)], some 1⟩
    prompts_by_id := [("P1", exPromptA), ("E1", exPromptB)] }

/-- Counterexample to C3 as stated: `cmd_rejudge`'s new entry dict
(run.py 551-562) has no `deepeval_scores` / `deepeval_avg` keys, so any
existing deepeval data on the prior latest entry is NOT carried forward:
`exRunScored` is a non-skipped rejudge candidate (scored by a retired
judge) whose `deepeval_avg` is `some 9/10`, yet the appended entry's
deepeval fields are absent. -/
theorem rejudge_entry_deepeval_dropped :
    rejudge_select "judge-1" false exStoreScored ["P1"] = (["P1"], 0)
    ∧ exRunScored.deepeval_avg = some (9/10)
    ∧ (rejudge_entry 7 "judge-1" exRunScored ⟨some 4, "fine"⟩).deepeval_avg = none
    ∧ (rejudge_entry 7 "judge-1" exRunScored ⟨some 4, "fine"⟩).deepeval_scores = none
    ∧ (rejudge_entry 7 "judge-1" exRunScored ⟨some 4, "fine"⟩).deepeval_avg
        ≠ exRunScored.deepeval_avg :=
  ⟨rfl, rfl, rfl, rfl, by decide⟩

/-- C3 (amended): a non-skipped re-scoring candidate's appended entry
copies the response fields unchanged from the prior latest entry — for
rejudge: content, latency, token counts, auto-checks, api_model and the
(absent) error, refreshing the judge fields and timestamp, while
`deepeval_scores` / `deepeval_avg` are NOT carried forward but left
absent; for rescore (deepeval): every field is copied including the judge
fields, with only the deepeval fields and timestamp refreshed. -/
theorem rescoring_entry_field_copy (now : Nat) (jmn : String)
    (run : RunEntry) (jr : JudgeResult) (de : DeepEvalResult)
    (herr : run.error = none) :
    ((rejudge_entry now jmn run jr).timestamp = now
    ∧ (rejudge_entry now jmn run jr).api_model = run.api_model
    ∧ (rejudge_entry now jmn run jr).content = run.content
    ∧ (rejudge_entry now jmn run jr).latency_s = run.latency_s
    ∧ (rejudge_entry now jmn run jr).input_tokens = run.input_tokens
    ∧ (rejudge_entry now jmn run jr).output_tokens = run.output_tokens
    ∧ (rejudge_entry now jmn run jr).auto_checks = run.auto_checks
    ∧ (rejudge_entry now jmn run jr).judge_score = jr.judge_score
    ∧ (rejudge_entry now jmn run jr).judge_rationale = jr.judge_rationale
    ∧ (rejudge_entry now jmn run jr).judge_model = some jmn
    ∧ (rejudge_entry now jmn run jr).error = run.error
    ∧ (rejudge_entry now jmn run jr).deepeval_scores = none
    ∧ (rejudge_entry now jmn run jr).deepeval_avg = none)
    ∧ ((deepeval_entry now run de).timestamp = now
    ∧ (deepeval_entry now run de).api_model = run.api_model
    ∧ (deepeval_entry now run de).content = run.content
    ∧ (deepeval_entry now run de).latency_s = run.latency_s
    ∧ (deepeval_entry now run de).input_tokens = run.input_tokens
    ∧ (deepeval_entry now run de).output_tokens = run.output_tokens
    ∧ (deepeval_entry now run de).auto_checks = run.auto_checks
    ∧ (deepeval_entry now run de).judge_score = run.judge_score
    ∧ (deepeval_entry now run de).judge_rationale = run.judge_rationale
    ∧ (deepeval_entry now run de).judge_model = run.judge_model
    ∧ (deepeval_entry now run de).deepeval_scores = some de.deepeval_scores
    ∧ (deepeval_entry now run de).deepeval_avg = de.deepeval_avg
    ∧ (deepeval_entry now run de).error = run.error) := by
  refine ⟨⟨rfl, rfl, rfl, rfl, rfl, rfl, rfl, rfl, rfl, rfl, ?_, rfl, rfl⟩,
    rfl, rfl, rfl, rfl, rfl, rfl, rfl, rfl, rfl, rfl, rfl, rfl, ?_⟩
  · simp [rejudge_entry, herr]
  · simp [deepeval_entry, herr]

/-- Witness for `rescoring_entry_field_copy` on `exRunScored`. -/
theorem rescoring_entry_field_copy_witness :
    (rejudge_entry 7 "judge-1" exRunScored ⟨some 4, "fine"⟩).content
        = exRunScored.content
    ∧ (rejudge_entry 7 "judge-1" exRunScored ⟨some 4, "fine"⟩).latency_s
        = exRunScored.latency_s
    ∧ (rejudge_entry 7 "judge-1" exRunScored ⟨some 4, "fine"⟩).deepeval_avg = none
    ∧ (deepeval_entry 7 exRunScored ⟨[("correctness", some 1)], some 1⟩).judge_score
        = exRunScored.judge_score
    ∧ (deepeval_entry 7 exRunScored ⟨[("correctness", some 1)], some 1⟩).content
        = exRunScored.content := by
  obtain ⟨⟨_, _, hc, hlat, _, _, _, _, _, _, _, _, hda⟩,
    _, _, hdc, _, _, _, _, hjs, _, _, _, _, _⟩ :=
    rescoring_entry_field_copy 7 "judge-1" exRunScored ⟨some 4, "fine"⟩
      ⟨[("correctness", some 1)], some 1⟩ rfl
  exact ⟨hc, hlat, hda, hjs, hdc⟩

/-- Counterexample to C4 as stated: the claim makes "latest run recorded a
completion error" one of the exactly-when conditions for incrementing the
'skipped' counter, so it predicts `skipped = 1` on `exStoreErr`; the code
(run.py 523-524, 642-643) drops errored candidates with a bare `continue`,
leaving the counter at 0 (history is indeed unchanged). -/
theorem error_skip_counter_not_incremented :
    latest_run exStoreErr "E1" = some exRunErr
    ∧ strTruthy exRunErr.error = true
    ∧ rejudge_select "judge-1" false exStoreErr ["E1"] = ([], 0)
    ∧ deepeval_select false exStoreErr ["E1"] = ([], 0)
    ∧ (cmd_rejudge_model exRejudgeEnv false 20 exStoreErr).2.2.1 = 0
    ∧ (cmd_deepeval_model exRescoreEnv false none 20 exStoreErr).2.2.1 = 0 :=
  ⟨rfl, rfl, rfl, rfl, rfl, rfl⟩

theorem cmd_rejudge_model_lookup_of_not_selected (jenv : RejudgeEnv)
    (force : Bool) (now : Nat) (model_data : RunStore) (pid : String)
    (h : rejudge_selected jenv.judge_model_name force model_data pid = false) :
    lookupRuns (cmd_rejudge_model jenv force now model_data).1 pid
      = lookupRuns model_data pid := by
  simp only [cmd_rejudge_model, rejudge_select_spec]
  apply rejudge_process_lookup_of_not_mem
  intro hmem
  have hsel := List.of_mem_filter hmem
  rw [h] at hsel
  cases hsel

theorem cmd_deepeval_model_lookup_of_not_selected (senv : RescoreEnv)
    (force : Bool) (now : Nat) (model_data : RunStore) (pid : String)
    (h : deepeval_selected force model_data pid = false) :
    lookupRuns (cmd_deepeval_model senv force none now model_data).1 pid
      = lookupRuns model_data pid := by
  simp only [cmd_deepeval_model, deepeval_select_spec]
  apply deepeval_process_lookup_of_not_mem
  intro hmem
  have hsel := List.of_mem_filter hmem
  rw [h] at hsel
  cases hsel

/-- C4 (amended): for a candidate prompt id, the workflows inspect only
the latest run, and skip it (history unchanged) exactly when that run
recorded a completion error or was already scored (by the current judge
for rejudge, with truthy deepeval scores for rescore) without `--force` —
but the 'skipped' counter is incremented only in the already-scored cases:
it counts exactly the non-errored already-scored candidates, and an
errored candidate is dropped silently.  With `--force` on an
already-scored candidate (prompt still in the eval set, adapter call
returning), exactly one new entry is appended to its history. -/
theorem rescoring_skip_semantics (jenv : RejudgeEnv) (senv : RescoreEnv)
    (force : Bool) (now : Nat) (model_data : RunStore) (pid : String)
    (run : RunEntry) (hnd : (storeKeys model_data).Nodup)
    (hl : latest_run model_data pid = some run) :
    (strTruthy run.error = true →
      lookupRuns (cmd_rejudge_model jenv force now model_data).1 pid
          = lookupRuns model_data pid
      ∧ lookupRuns (cmd_deepeval_model senv force none now model_data).1 pid
          = lookupRuns model_data pid
      ∧ rejudge_skipped jenv.judge_model_name force model_data pid = false
      ∧ deepeval_skipped force model_data pid = false)
    ∧ (strTruthy run.error = false → force = false →
        run.judge_model = some jenv.judge_model_name →
        run.judge_score.isSome = true →
      lookupRuns (cmd_rejudge_model jenv false now model_data).1 pid
          = lookupRuns model_data pid
      ∧ rejudge_skipped jenv.judge_model_name false model_data pid = true)
    ∧ (strTruthy run.error = false → force = false →
        deTruthy run.deepeval_scores = true →
      lookupRuns (cmd_deepeval_model senv false none now model_data).1 pid
          = lookupRuns model_data pid
      ∧ deepeval_skipped false model_data pid = true)
    ∧ (cmd_rejudge_model jenv force now model_data).2.2.1
        = (storeKeys model_data).countP
            (rejudge_skipped jenv.judge_model_name force model_data)
    ∧ (cmd_deepeval_model senv force none now model_data).2.2.1
        = (storeKeys model_data).countP (deepeval_skipped force model_data)
    ∧ (∀ (pmeta : PromptMeta) (jr : JudgeResult),
        pid ∈ storeKeys model_data →
        strTruthy run.error = false →
        lookupMeta jenv.prompts_by_id pid = some pmeta →
        jenv.judge pmeta run.content run.auto_checks = Except.ok jr →
        ∃ k, lookupRuns (cmd_rejudge_model jenv true now model_data).1 pid
          = lookupRuns model_data pid
              ++ [rejudge_entry (now + k) jenv.judge_model_name run jr])
    ∧ (∀ (pmeta : PromptMeta) (de : DeepEvalResult),
        pid ∈ storeKeys model_data →
        strTruthy run.error = false →
        lookupMeta senv.prompts_by_id pid = some pmeta →
        senv.scorer pmeta run.content = Except.ok de →
        ∃ k, lookupRuns (cmd_deepeval_model senv true none now model_data).1 pid
          = lookupRuns model_data pid ++ [deepeval_entry (now + k) run de]) := by
  refine ⟨fun he => ⟨?_, ?_, ?_, ?_⟩, fun he hf hm hs => ⟨?_, ?_⟩,
    fun he hf hd => ⟨?_, ?_⟩, ?_, ?_, fun pmeta jr hmem he hm hj => ?_,
    fun pmeta de hmem he hm hj => ?_⟩
  · exact cmd_rejudge_model_lookup_of_not_selected jenv force now model_data pid
      (by simp [rejudge_selected, hl, he])
  · exact cmd_deepeval_model_lookup_of_not_selected senv force now model_data pid
      (by simp [deepeval_selected, hl, he])
  · simp [rejudge_skipped, hl, he]
  · simp [deepeval_skipped, hl, he]
  · exact cmd_rejudge_model_lookup_of_not_selected jenv false now model_data pid
      (by simp [rejudge_selected, hl, he, hm, hs])
  · simp [rejudge_skipped, hl, he, hm, hs]
  · exact cmd_deepeval_model_lookup_of_not_selected senv false now model_data pid
      (by simp [deepeval_selected, hl, he, hd])
  · simp [deepeval_skipped, hl, he, hd]
  · simp only [cmd_rejudge_model, rejudge_select_spec]
  · simp only [cmd_deepeval_model, deepeval_select_spec]
  · have hself : rejudge_selected jenv.judge_model_name true model_data pid = true := by
      simp [rejudge_selected, hl, he]
    simp only [cmd_rejudge_model, rejudge_select_spec]
    exact rejudge_process_append jenv _ model_data now pid run pmeta jr
      (hnd.filter _) (List.mem_filter.mpr ⟨hmem, hself⟩) hl hm hj
  · have hself : deepeval_selected true model_data pid = true := by
      simp [deepeval_selected, hl, he]
    simp only [cmd_deepeval_model, deepeval_select_spec]
    exact deepeval_process_append senv _ model_data now pid run pmeta de
      (hnd.filter _) (List.mem_filter.mpr ⟨hmem, hself⟩) hl hm hj

/-- Witness for `rescoring_skip_semantics`: an errored candidate is
dropped with history and counter untouched; a deepeval-scored candidate is
skipped-with-count by rescore without force; with force, rejuding the
already-scored `exRunScored` appends exactly one refreshed entry. -/
theorem rescoring_skip_semantics_witness :
    (lookupRuns (cmd_rejudge_model exRejudgeEnv false 20 exStoreErr).1 "E1"
        = lookupRuns exStoreErr "E1"
      ∧ lookupRuns (cmd_deepeval_model exRescoreEnv false none 20 exStoreErr).1 "E1"
        = lookupRuns exStoreErr "E1"
      ∧ rejudge_skipped "judge-1" false exStoreErr "E1" = false
      ∧ deepeval_skipped false exStoreErr "E1" = false)
    ∧ (lookupRuns (cmd_deepeval_model exRescoreEnv false none 21 exStoreScored).1 "P1"
        = lookupRuns exStoreScored "P1"
      ∧ deepeval_skipped false exStoreScored "P1" = true)
    ∧ (∃ k, lookupRuns (cmd_rejudge_model exRejudgeEnv true 22 exStoreScored).1 "P1"
        = lookupRuns exStoreScored "P1"
            ++ [rejudge_entry (22 + k) "judge-1" exRunScored ⟨some 4, "fine"⟩]) :=
  ⟨(rescoring_skip_semantics exRejudgeEnv exRescoreEnv false 20 exStoreErr "E1"
      exRunErr (by decide) rfl).1 rfl,
    (rescoring_skip_semantics exRejudgeEnv exRescoreEnv false 21 exStoreScored "P1"
      exRunScored (by decide) rfl).2.2.1 rfl rfl rfl,
    (rescoring_skip_semantics exRejudgeEnv exRescoreEnv true 22 exStoreScored "P1"
      exRunScored (by decide) rfl).2.2.2.2.2.1 exPromptA ⟨some 4, "fine"⟩
      (by decide) rfl rfl rfl⟩

/-! ## `cmd_compare` vs dashboard `compute_stats` -/

/-- Counterexample to C10 as stated: on a store whose latest run has
`error` set, the two aggregations disagree — `cmd_compare` counts the
errored run's flags and latency (flagged = 1, mean latency = 1), while
`compute_stats` excludes errored runs from those statistics (flagged = 0,
mean latency = 0, counting it under `errors` instead). -/
theorem compare_dashboard_disagree_on_error :
    latest_run exStoreErr "E1" = some exRunErr
    ∧ strTruthy exRunErr.error = true
    ∧ (compare_row (1/2) (1/2) "m" exStoreErr ["E1"]).flagged = 1
    ∧ (compute_stats_row (fun q => q) (1/2) (1/2) "m" exStoreErr ["E1"]).flagged = 0
    ∧ (compare_row (1/2) (1/2) "m" exStoreErr ["E1"]).avg_l = 1
    ∧ (compute_stats_row (fun q => q) (1/2) (1/2) "m" exStoreErr ["E1"]).avg_latency
        = 0
    ∧ (compute_stats_row (fun q => q) (1/2) (1/2) "m" exStoreErr ["E1"]).errors = 1 := by
  refine ⟨rfl, rfl, rfl, rfl, ?_, rfl, rfl⟩
  show listAvg ((latest_runs exStoreErr ["E1"]).map (fun r => r.latency_s)) = 1
  have hlat : (latest_runs exStoreErr ["E1"]).map (fun r => r.latency_s) = [1] := rfl
  rw [hlat]
  norm_num [listAvg]

/-- The data-model invariant every entry written by this code satisfies:
a latest run that recorded a completion error carries neither a judge
score nor a deepeval average (the `cmd_eval` error entry sets
`judge_score = None` and no deepeval keys; re-scoring never touches
errored candidates). -/
def error_runs_unscored (data : RunStore) (pids : List String) : Prop :=
  ∀ pid ∈ pids, ∀ r : RunEntry, latest_run data pid = some r →
    strTruthy r.error = true → r.judge_score = none ∧ r.deepeval_avg = none

theorem filterMap_filter_of_none {α β : Type} (f : α → Option β)
    (p : α → Bool) (l : List α)
    (h : ∀ x ∈ l, p x = false → f x = none) :
    (l.filter p).filterMap f = l.filterMap f := by
  induction l with
  | nil => rfl
  | cons a l ih =>
    have ih' := ih (fun x hx hpx => h x (List.mem_cons_of_mem a hx) hpx)
    by_cases hp : p a = true
    · rw [List.filter_cons_of_pos hp, List.filterMap_cons, List.filterMap_cons]
      cases f a <;> simp [ih']
    · have hpa : p a = false := by simpa using hp
      rw [List.filter_cons_of_neg (by simp [hpa]), List.filterMap_cons,
        h a (List.mem_cons_self a l) hpa, ih']

theorem stats_gather_eq (data : RunStore) (pids : List String)
    (hwf : error_runs_unscored data pids) :
    (stats_latest_ok data pids).filterMap (fun r => r.judge_score)
      = (latest_runs data pids).filterMap (fun r => r.judge_score)
    ∧ (stats_latest_ok data pids).filterMap (fun r => r.deepeval_avg)
      = (latest_runs data pids).filterMap (fun r => r.deepeval_avg) := by
  constructor <;>
  · apply filterMap_filter_of_none
    intro x hx hpx
    rcases List.mem_filterMap.mp hx with ⟨pid, hpid, hlat⟩
    have hx' := hwf pid hpid x hlat (by simpa using hpx)
    simp [hx'.1, hx'.2]

theorem compare_stats_key_eq (jw dw : ℚ) (log2 : ℚ → ℚ) (name : String)
    (data : RunStore) (pids : List String)
    (hwf : error_runs_unscored data pids) :
    (compare_row jw dw name data pids).avg_s
        = (compute_stats_row log2 jw dw name data pids).avg_score
    ∧ (compare_row jw dw name data pids).scored
        = (compute_stats_row log2 jw dw name data pids).scored
    ∧ (latest_runs data pids).filterMap (fun r => r.deepeval_avg)
        = (stats_latest_ok data pids).filterMap (fun r => r.deepeval_avg)
    ∧ (compare_row jw dw name data pids).composite
        = (compute_stats_row log2 jw dw name data pids).composite_score := by
  have hs := (stats_gather_eq data pids hwf).1
  have hd := (stats_gather_eq data pids hwf).2
  refine ⟨?_, ?_, hd.symm, ?_⟩
  · show listAvgN ((latest_runs data pids).filterMap (fun r => r.judge_score))
        = listAvgN ((stats_latest_ok data pids).filterMap (fun r => r.judge_score))
    rw [hs]
  · show ((latest_runs data pids).filterMap (fun r => r.judge_score)).length
        = ((stats_latest_ok data pids).filterMap (fun r => r.judge_score)).length
    rw [hs]
  · show composite_of jw dw
        ((latest_runs data pids).filterMap (fun r => r.judge_score))
        ((latest_runs data pids).filterMap (fun r => r.deepeval_avg))
      = composite_of jw dw
        ((stats_latest_ok data pids).filterMap (fun r => r.judge_score))
        ((stats_latest_ok data pids).filterMap (fun r => r.deepeval_avg))
    rw [hs, hd]

/-- The shared name-and-key projection of a leaderboard row. -/
def pairDesc (a b : String × (Bool × ℚ)) : Prop := keyLE b.2 a.2

instance : DecidableRel pairDesc := fun a b =>
  decidable_of_iff (keyLE b.2 a.2) Iff.rfl

/-- C10 (amended): for stores whose errored latest runs carry no judge
score and no deepeval average (true of every entry this code writes), the
`compare` command and the dashboard's `compute_stats` agree on the average
judge score, the judge-scored count, the secondary-average gather, the
composite score, and — via identical `(scored > 0, composite or 0)` sort
keys — produce the same leaderboard order; they need NOT agree on flagged
count, mean latency or mean output tokens once a latest run has `error`
set (see the counterexample). -/
theorem compare_dashboard_agreement (jw dw : ℚ) (log2 : ℚ → ℚ)
    (name : String) (data : RunStore) (pids : List String)
    (models : List (String × RunStore))
    (hwf : error_runs_unscored data pids)
    (hwfm : ∀ m ∈ models, error_runs_unscored m.2 pids) :
    ((compare_row jw dw name data pids).avg_s
        = (compute_stats_row log2 jw dw name data pids).avg_score)
    ∧ ((compare_row jw dw name data pids).scored
        = (compute_stats_row log2 jw dw name data pids).scored)
    ∧ ((latest_runs data pids).filterMap (fun r => r.deepeval_avg)
        = (stats_latest_ok data pids).filterMap (fun r => r.deepeval_avg))
    ∧ ((compare_row jw dw name data pids).composite
        = (compute_stats_row log2 jw dw name data pids).composite_score)
    ∧ (leadKey (compare_row jw dw name data pids).scored
          (compare_row jw dw name data pids).composite
        = leadKey (compute_stats_row log2 jw dw name data pids).scored
            (compute_stats_row log2 jw dw name data pids).composite_score)
    ∧ ((compare_sort (models.map (fun m => compare_row jw dw m.1 m.2 pids))).map
          (fun r => r.name)
        = (stats_sort (models.map
            (fun m => compute_stats_row log2 jw dw m.1 m.2 pids))).map
          (fun r => r.name)) := by
  obtain ⟨h1, h2, h3, h4⟩ := compare_stats_key_eq jw dw log2 name data pids hwf
  refine ⟨h1, h2, h3, h4, ?_, ?_⟩
  · rw [leadKey, leadKey, h2, h4]
  · have hmap : (models.map (fun m => compare_row jw dw m.1 m.2 pids)).map
        (fun x => (x.name, leadKey x.scored x.composite))
        = (models.map (fun m => compute_stats_row log2 jw dw m.1 m.2 pids)).map
          (fun x => (x.name, leadKey x.scored x.composite_score)) := by
      rw [List.map_map, List.map_map]
      apply List.map_congr_left
      intro m hm
      obtain ⟨_, k2, _, k4⟩ :=
        compare_stats_key_eq jw dw log2 m.1 m.2 pids (hwfm m hm)
      simp only [Function.comp]
      rw [leadKey, leadKey, k2, k4]
      rfl
    have hc : (compare_sort (models.map (fun m => compare_row jw dw m.1 m.2 pids))).map
          (fun x => (x.name, leadKey x.scored x.composite))
        = ((models.map (fun m => compare_row jw dw m.1 m.2 pids)).map
            (fun x => (x.name, leadKey x.scored x.composite))).insertionSort pairDesc :=
      List.map_insertionSort compareDesc pairDesc _ _
        (fun a _ b _ => Iff.rfl)
    have hst : (stats_sort (models.map
            (fun m => compute_stats_row log2 jw dw m.1 m.2 pids))).map
          (fun x => (x.name, leadKey x.scored x.composite_score))
        = ((models.map (fun m => compute_stats_row log2 jw dw m.1 m.2 pids)).map
            (fun x => (x.name, leadKey x.scored x.composite_score))).insertionSort
              pairDesc :=
      List.map_insertionSort statsDesc pairDesc _ _ (fun a _ b _ => Iff.rfl)
    have hkey : (compare_sort (models.map (fun m => compare_row jw dw m.1 m.2 pids))).map
          (fun x => (x.name, leadKey x.scored x.composite))
        = (stats_sort (models.map
            (fun m => compute_stats_row log2 jw dw m.1 m.2 pids))).map
          (fun x => (x.name, leadKey x.scored x.composite_score)) := by
      rw [hc, hst, hmap]
    have := congrArg (List.map Prod.fst) hkey
    simpa [List.map_map, Function.comp] using this

/-- Witness for `compare_dashboard_agreement` on the error-free store
`exStoreAgg`. -/
theorem compare_dashboard_agreement_witness :
    (compare_row (1/2) (1/2) "m" exStoreAgg ["P1", "P2"]).composite
        = (compute_stats_row (fun q => q) (1/2) (1/2) "m" exStoreAgg
            ["P1", "P2"]).composite_score
    ∧ (compare_sort [compare_row (1/2) (1/2) "m" exStoreAgg ["P1", "P2"]]).map
          (fun r => r.name)
        = (stats_sort [compute_stats_row (fun q => q) (1/2) (1/2) "m" exStoreAgg
            ["P1", "P2"]]).map (fun r => r.name) := by
  have hwf : error_runs_unscored exStoreAgg ["P1", "P2"] := by
    intro pid hpid r hlat herr
    rcases List.mem_cons.mp hpid with rfl | hpid'
    · rw [show latest_run exStoreAgg "P1" = some exEntryJudged from rfl] at hlat
      cases hlat
      exact absurd herr (by decide)
    · rcases List.mem_cons.mp hpid' with rfl | hnil
      · rw [show latest_run exStoreAgg "P2" = some exEntryDeepeval from rfl] at hlat
        cases hlat
        exact absurd herr (by decide)
      · cases hnil
  have h := compare_dashboard_agreement (1/2) (1/2) (fun q => q) "m" exStoreAgg
    ["P1", "P2"] [("m", exStoreAgg)] hwf
    (fun m hm => by
      rcases List.mem_cons.mp hm with rfl | hnil
      · exact hwf
      · cases hnil)
  exact ⟨h.2.2.2.1, h.2.2.2.2.2⟩

end BenchPress
